import Mathlib

/-!
Shallow embedding of the reviewbot pull-request lint pipeline.
The embedded functions mirror, declaration by declaration, the final
revision of the handler source (type Message, type File, exec, lintDiff,
ruleUrl, formatRuleMessage, shouldBeSkipped, writeSummary, worriedEmoji,
and the app.on event handler).  External collaborators (the spawned
process, JSON.parse, path.relative) enter as explicit values or function
parameters; the side effects of the handler (core.warning, core.setFailed,
writing the summary file) are recorded as an ordered event trace.
-/

namespace Reviewbot

/-- Embedding of the source type Message: one linter finding. -/
structure Message where
  ruleId : String
  severity : Int
  message : String
  line : Int
  column : Int
  nodeType : String
  messageId : String
  endLine : Int
  endColumn : Int
deriving Repr, DecidableEq

/-- Embedding of the source type File: a file path with its findings. -/
structure File where
  filePath : String
  messages : List Message
deriving Repr, DecidableEq

/-- Annotation record built by the handler, with the shape
message, title, file, startLine, startColumn, endLine, endColumn. -/
structure Annot where
  message : String
  title : String
  file : String
  startLine : Int
  startColumn : Int
  endLine : Int
  endColumn : Int
deriving Repr, DecidableEq

/-- Splitting a character list at every occurrence of the character c,
keeping empty segments, as the JavaScript String.prototype.split does
for a one-character separator. -/
def splitChars (c : Char) : List Char → List (List Char)
  | [] => [[]]
  | x :: xs =>
    let r := splitChars c xs
    if x = c then [] :: r
    else
      match r with
      | [] => [[x]]
      | h :: t => (x :: h) :: t

/-- Model of the JavaScript ruleName.split(sep) for a one-character
separator. -/
def jsSplit (c : Char) (s : String) : List String :=
  (splitChars c s.toList).map String.mk

/-- Embedding of the source ruleUrl: split the rule name on a slash; a
one-element split maps to the eslint.org rules page, otherwise the first
element selects the plugin and the second element (the JavaScript
destructuring takes exactly the first two) names the rule page; an
unknown first element yields undefined, here none. -/
def ruleUrl (ruleName : String) : Option String :=
  let splittedRuleName := jsSplit '/' ruleName
  if splittedRuleName.length == 1 then
    some ("https://eslint.org/docs/rules/" ++ ruleName)
  else
    let domain := splittedRuleName.headD ""
    let ruleId := (splittedRuleName.drop 1).headD ""
    if domain == "jest" then
      some ("https://github.com/jest-community/eslint-plugin-jest/blob/main/docs/rules/" ++ ruleId ++ ".md")
    else if domain == "testing-library" then
      some ("https://github.com/testing-library/eslint-plugin-testing-library/blob/main/docs/rules/" ++ ruleId ++ ".md")
    else if domain == "@typescript-eslint" then
      some ("https://github.com/typescript-eslint/typescript-eslint/blob/main/packages/eslint-plugin/docs/rules/" ++ ruleId ++ ".md")
    else
      none

/-- Embedding of the source formatRuleMessage: the conditional url ? A : B
of the source tests JavaScript truthiness, so an empty string would also
fall back to the generic message. -/
def formatRuleMessage (ruleName : String) : String :=
  match ruleUrl ruleName with
  | some url => if url.isEmpty then "No further rule information available." else "See " ++ url ++ " for details."
  | none => "No further rule information available."

/-- Substring test on character lists, the semantics of the JavaScript
String.prototype.includes. -/
def hasInfix : List Char → List Char → Bool
  | [], pat => pat.isEmpty
  | a :: rest, pat => pat.isPrefixOf (a :: rest) || hasInfix rest pat

/-- Model of body.includes(pat) on strings. -/
def jsIncludes (s pat : String) : Bool :=
  hasInfix s.toList pat.toList

/-- Embedding of the source shouldBeSkipped: the body is a nullable
string; body ? ... : false is false for null and for the empty string
(both are falsy in JavaScript), otherwise the three markers are looked
up as literal substrings. -/
def shouldBeSkipped (body : Option String) : Bool :=
  match body with
  | none => false
  | some b =>
    if b.toList.isEmpty then false
    else jsIncludes b "[review skip]" || jsIncludes b "[no review]" || jsIncludes b "[skip review]"

/-- Embedding of the source worriedEmoji. -/
def worriedEmoji (numberOfErrors : Nat) : String :=
  if 100 < numberOfErrors then ":sob:"
  else if 10 < numberOfErrors then ":disappointed_relieved:"
  else ":worried:"

/-- Embedding of the source constant LINTER_TIMEOUT, the execution
timeout in milliseconds handed to spawnSync. -/
def LINTER_TIMEOUT : Nat := 10 * 60 * 1000

/-- Failure reported by the spawn layer: the timeout kill produces an
ETIMEDOUT error (and a null exit status), a failure to spawn at all
produces errors such as ENOENT. -/
inductive SpawnErr where
  | timedOut
  | spawnFailed (code : String)
deriving Repr, DecidableEq

/-- Observable outcome of spawnSync(command, timeout): the exit status is
null when the child was killed or never ran, and the error field is
undefined (none) for a plain non-zero exit. -/
structure SpawnResult where
  status : Option Int
  stdout : String
  error : Option SpawnErr
deriving Repr, DecidableEq

/-- Embedding of the source exec: resolve with stdout exactly when the
exit status is zero, otherwise reject with the (possibly undefined)
spawn error. -/
def execModel (r : SpawnResult) : Except (Option SpawnErr) String :=
  if r.status = some 0 then Except.ok r.stdout else Except.error r.error

/-- Error of a lintDiff call: either the rejection coming from exec, or a
JSON.parse exception on the stdout text. -/
inductive LintErr where
  | execFailed (e : Option SpawnErr)
  | parseFailed
deriving Repr, DecidableEq

/-- Embedding of the source lintDiff, after the command string has been
handed to the process layer: awaits exec (a SpawnResult observed from
the child process) and then JSON.parse on the stdout; parseJson models
JSON.parse together with the shape conversion, returning none when the
text is not a well-formed report. -/
def lintDiff (r : SpawnResult) (parseJson : String → Option (List File)) :
    Except LintErr (List File) :=
  match execModel r with
  | Except.error e => Except.error (LintErr.execFailed e)
  | Except.ok out =>
    match parseJson out with
    | none => Except.error LintErr.parseFailed
    | some files => Except.ok files

/-- Run-level failure of the event handler. -/
inductive RunErr where
  | lintFailed (e : LintErr)
  | missingSummaryPath
deriving Repr, DecidableEq

/-- Observable side effects of one handler run, in program order. -/
inductive Event where
  | lintInvoked
  | warningEmitted (a : Annot)
  | runFailed (msg : String)
  | summaryWritten (s : String)
deriving Repr, DecidableEq

/-- Embedding of the source writeSummary: reading GITHUB_STEP_SUMMARY
from the environment (here the stepSummaryPath argument) and throwing
when it is undefined, before anything is written to the file. -/
def writeSummary (stepSummaryPath : Option String) (summary : String) :
    Except RunErr Event :=
  match stepSummaryPath with
  | none => Except.error RunErr.missingSummaryPath
  | some _ => Except.ok (Event.summaryWritten summary)

/-- Object literal built for one message inside the annotations flatMap
of the handler; nf models normalizeFilename applied with the configured
working directory (a pure path computation done by path.relative). -/
def mkAnnot (nf : String → String) (file : File) (m : Message) : Annot :=
  { message := formatRuleMessage m.ruleId
    title := m.message
    file := nf file.filePath
    startLine := m.line
    startColumn := m.column
    endLine := m.endLine
    endColumn := m.endColumn }

/-- Embedding of filesWithErrors: results.filter(result.messages.length > 0). -/
def filesWithErrors (results : List File) : List File :=
  results.filter fun f => decide (0 < f.messages.length)

/-- Embedding of totalErrors: map to the per-file counts, then
reduce((prev, cur) => prev + cur, 0). -/
def totalErrors (results : List File) : Nat :=
  ((filesWithErrors results).map fun f => f.messages.length).foldl (fun prev cur => prev + cur) 0

/-- Embedding of the annotations flatMap over filesWithErrors. -/
def annotsFor (nf : String → String) (results : List File) : List Annot :=
  (filesWithErrors results).flatMap fun f => f.messages.map fun m => mkAnnot nf f m

/-- Embedding of the app.on event handler, from the point where the
pull-request record has been fetched: the skip check, the lintDiff call
(whose outcome is the lint argument), filesWithErrors, totalErrors, the
annotations flatMap, core.warning per annotation, core.setFailed, and
writeSummary.  The first component is the trace of side effects up to
the point where the run ended, the second the run-level error, none for
a normally completed run. -/
def handler (body : Option String) (stepSummaryPath : Option String)
    (nf : String → String) (lint : Except LintErr (List File)) :
    List Event × Option RunErr :=
  if shouldBeSkipped body then ([], none)
  else
    match lint with
    | Except.error e => ([Event.lintInvoked], some (RunErr.lintFailed e))
    | Except.ok results =>
      let total := totalErrors results
      if 0 < total then
        let warnings := (annotsFor nf results).map Event.warningEmitted
        let trace := Event.lintInvoked :: warnings ++
          [Event.runFailed ("Found " ++ toString total ++ " linter hints in the changed code.")]
        match writeSummary stepSummaryPath
            ("## Found " ++ toString total ++ " linter hints in the changed code. " ++ worriedEmoji total) with
        | Except.error e => (trace, some e)
        | Except.ok ev => (trace ++ [ev], none)
      else
        match writeSummary stepSummaryPath "## Your code looks awesome! :rocket:" with
        | Except.error e => ([Event.lintInvoked], some e)
        | Except.ok ev => ([Event.lintInvoked, ev], none)

/-- Number of warning annotations in a trace. -/
def countWarnings (evs : List Event) : Nat :=
  (evs.filter fun e =>
    match e with
    | Event.warningEmitted _ => true
    | _ => false).length

/-- True when the trace contains no summaryWritten event. -/
def noSummaryEvent (evs : List Event) : Bool :=
  evs.all fun e =>
    match e with
    | Event.summaryWritten _ => false
    | _ => true

/-- Change status letter reported by git diff for one path. -/
inductive ChangeStatus where
  | added
  | copied
  | deleted
  | modified
  | renamed
  | typeChanged
  | unmerged
deriving Repr, DecidableEq

/-- One path changed between the base and head commits, with its status. -/
structure ChangedFile where
  path : String
  change : ChangeStatus
deriving Repr, DecidableEq

/-- Gate of the diff-filter=ACMR flag. -/
def isACMR (c : ChangeStatus) : Bool :=
  match c with
  | ChangeStatus.added => true
  | ChangeStatus.copied => true
  | ChangeStatus.modified => true
  | ChangeStatus.renamed => true
  | _ => false

/-- Model of git diff --name-only --diff-filter=ACMR base...head: the
names of the changed paths whose status is Added, Copied, Modified or
Renamed, in order. -/
def gitDiffACMR (changes : List ChangedFile) : List String :=
  (changes.filter fun c => isACMR c.change).map fun c => c.path

/-- Model of one line passing grep -E with the pattern built in the
lintDiff command string from a path p: caret, then p and a slash, then
(.*), then an unescaped dot (matching ANY single character), then the
class [jt], then s, then an optional x, then the dollar anchor.  A line
matches exactly when it starts with the p/ part and the remainder ends
in js, ts, jsx or tsx preceded by at least one arbitrary character. -/
def grepLintMatch (p : List Char) (line : List Char) : Bool :=
  p.isPrefixOf line &&
    (let rest := line.drop p.length
     (['j', 's'].isSuffixOf rest && decide (3 ≤ rest.length)) ||
     (['t', 's'].isSuffixOf rest && decide (3 ≤ rest.length)) ||
     (['j', 's', 'x'].isSuffixOf rest && decide (4 ≤ rest.length)) ||
     (['t', 's', 'x'].isSuffixOf rest && decide (4 ≤ rest.length)))

/-- Model of the sed command of lintDiff, which deletes a leading
occurrence of p (the path prefix followed by a slash) from the line. -/
def sedStripPfx (p : List Char) (line : List Char) : List Char :=
  if p.isPrefixOf line then line.drop p.length else line

/-- File selection performed by the lintDiff command string for a path
prefix pfx: the ACMR-changed names are filtered by the grep pattern and
the prefix is stripped by sed; the surviving names are the arguments
handed to the linter. -/
def lintDiffSelection (pfx : String) (changes : List ChangedFile) : List String :=
  let p := (pfx ++ "/").toList
  (((gitDiffACMR changes).map String.toList).filter (grepLintMatch p)).map
    fun l => String.mk (sedStripPfx p l)

/-- Modelled from the spec words for the Diff Resolver contract: exactly
the ACMR-changed files under the prefix whose extension is .js, .jsx,
.ts or .tsx, returned with the prefix stripped. -/
def selectionSpec (pfx : String) (changes : List ChangedFile) : List String :=
  let p := (pfx ++ "/").toList
  (((gitDiffACMR changes).map String.toList).filter fun l =>
      p.isPrefixOf l &&
        (let rest := l.drop p.length
         ['.', 'j', 's'].isSuffixOf rest || ['.', 't', 's'].isSuffixOf rest ||
         ['.', 'j', 's', 'x'].isSuffixOf rest || ['.', 't', 's', 'x'].isSuffixOf rest)).map
    fun l => String.mk (l.drop p.length)

/-- Modelled from the claim words for rule-URL resolution: the rule id
handed to the plugin documentation path is everything after the FIRST
slash of the rule name. -/
def ruleUrlClaim (ruleName : String) : Option String :=
  match jsSplit '/' ruleName with
  | [] => none
  | [_] => some ("https://eslint.org/docs/rules/" ++ ruleName)
  | domain :: rest =>
    let ruleId := String.intercalate "/" rest
    if domain == "jest" then
      some ("https://github.com/jest-community/eslint-plugin-jest/blob/main/docs/rules/" ++ ruleId ++ ".md")
    else if domain == "testing-library" then
      some ("https://github.com/testing-library/eslint-plugin-testing-library/blob/main/docs/rules/" ++ ruleId ++ ".md")
    else if domain == "@typescript-eslint" then
      some ("https://github.com/typescript-eslint/typescript-eslint/blob/main/packages/eslint-plugin/docs/rules/" ++ ruleId ++ ".md")
    else
      none

/-- Amended description of rule-URL resolution: the rule id handed to
the plugin documentation path is the SECOND slash-separated component of
the rule name alone; any later components are ignored. -/
def ruleUrlAmended (ruleName : String) : Option String :=
  match jsSplit '/' ruleName with
  | [] => none
  | [_] => some ("https://eslint.org/docs/rules/" ++ ruleName)
  | domain :: ruleId :: _ =>
    if domain == "jest" then
      some ("https://github.com/jest-community/eslint-plugin-jest/blob/main/docs/rules/" ++ ruleId ++ ".md")
    else if domain == "testing-library" then
      some ("https://github.com/testing-library/eslint-plugin-testing-library/blob/main/docs/rules/" ++ ruleId ++ ".md")
    else if domain == "@typescript-eslint" then
      some ("https://github.com/typescript-eslint/typescript-eslint/blob/main/packages/eslint-plugin/docs/rules/" ++ ruleId ++ ".md")
    else
      none

/-- Sample finding used by concrete witnesses. -/
def sampleMsg : Message :=
  { ruleId := "semi"
    severity := 2
    message := "Missing semicolon."
    line := 3
    column := 7
    nodeType := "ExpressionStatement"
    messageId := "missingSemi"
    endLine := 3
    endColumn := 8 }

/-- Sample file result with one finding. -/
def sampleFile : File :=
  { filePath := "w/a.ts", messages := [sampleMsg] }

/-- Sample file result with no finding. -/
def emptyFile : File :=
  { filePath := "w/b.ts", messages := [] }

/-- Spawn outcome of a command that could not be started at all: null
exit status and an ENOENT error, the outcome Node gives spawnSync for a
command string that names no executable file. -/
def enoentSpawn : SpawnResult :=
  { status := none, stdout := "", error := some (SpawnErr.spawnFailed "ENOENT") }

/-- Correctness of the executable substring test against the Mathlib
infix relation. -/
theorem hasInfix_iff (pat : List Char) (l : List Char) :
    hasInfix l pat = true ↔ pat <:+: l := by
  induction l with
  | nil => simp [hasInfix, List.isEmpty_iff, List.infix_nil]
  | cons a rest ih =>
    simp [hasInfix, List.infix_cons_iff, ih, List.isPrefixOf_iff_prefix]

/-- Claim C3 (counterexample): for the rule name jest/a/b the source
builds the plugin URL from the second slash component a alone, not from
the text a/b after the first slash as the claim states. -/
theorem ruleUrl_multislash_cex :
    ruleUrl "jest/a/b" =
      some "https://github.com/jest-community/eslint-plugin-jest/blob/main/docs/rules/a.md" ∧
    ruleUrlClaim "jest/a/b" =
      some "https://github.com/jest-community/eslint-plugin-jest/blob/main/docs/rules/a/b.md" ∧
    ruleUrl "jest/a/b" ≠ ruleUrlClaim "jest/a/b" := by
  refine ⟨rfl, rfl, ?_⟩
  decide

/-- Claim C3 (amended): rule-URL resolution is a total deterministic
function of the rule string; an unnamespaced rule maps to the eslint.org
rules page, a rule whose first slash component is jest, testing-library
or @typescript-eslint maps to the plugin page named by the SECOND slash
component, every other namespaced rule yields no URL, and the formatter
then falls back to the generic no-further-information message. -/
theorem ruleUrl_amended_total (r : String) :
    ruleUrl r = ruleUrlAmended r ∧
    (ruleUrl r = none → formatRuleMessage r = "No further rule information available.") := by
  constructor
  · unfold ruleUrl ruleUrlAmended
    cases h : jsSplit '/' r with
    | nil => rfl
    | cons a t =>
      cases t with
      | nil => rfl
      | cons b t2 => rfl
  · intro h
    simp [formatRuleMessage, h]

/-- Witness for ruleUrl_amended_total at the concrete rule foo/bar. -/
theorem ruleUrl_amended_total_witness :
    ruleUrl "foo/bar" = ruleUrlAmended "foo/bar" ∧
    formatRuleMessage "foo/bar" = "No further rule information available." :=
  ⟨(ruleUrl_amended_total "foo/bar").1, (ruleUrl_amended_total "foo/bar").2 rfl⟩

/-- Claim C5: the selection performed by the lintDiff command string
selects the changed path pkg/abts although its extension is not one of
.js, .jsx, .ts, .tsx, because the dot of the extension pattern is not
escaped in the grep regular expression; a genuine .ts path is selected
by both the command and the specified filter, with the prefix stripped. -/
theorem grep_dot_unescaped :
    lintDiffSelection "pkg" [{ path := "pkg/abts", change := ChangeStatus.modified }] = ["abts"] ∧
    selectionSpec "pkg" [{ path := "pkg/abts", change := ChangeStatus.modified }] = [] ∧
    lintDiffSelection "pkg" [{ path := "pkg/a.ts", change := ChangeStatus.modified }] = ["a.ts"] ∧
    selectionSpec "pkg" [{ path := "pkg/a.ts", change := ChangeStatus.modified }] = ["a.ts"] := by
  exact ⟨rfl, rfl, rfl, rfl⟩

/-- Claim C6: boundary behavior of the failure emoji. -/
theorem worriedEmoji_boundaries (n : Nat) :
    (1 ≤ n → n ≤ 10 → worriedEmoji n = ":worried:") ∧
    (11 ≤ n → n ≤ 100 → worriedEmoji n = ":disappointed_relieved:") ∧
    (100 < n → worriedEmoji n = ":sob:") ∧
    worriedEmoji 10 = ":worried:" ∧
    worriedEmoji 11 = ":disappointed_relieved:" ∧
    worriedEmoji 100 = ":disappointed_relieved:" ∧
    worriedEmoji 101 = ":sob:" := by
  refine ⟨fun h1 h2 => ?_, fun h1 h2 => ?_, fun h1 => ?_, rfl, rfl, rfl, rfl⟩
  · unfold worriedEmoji
    rw [if_neg (by omega), if_neg (by omega)]
  · unfold worriedEmoji
    rw [if_neg (by omega), if_pos (by omega)]
  · unfold worriedEmoji
    rw [if_pos h1]

/-- Witness for worriedEmoji_boundaries inside each of the three bands. -/
theorem worriedEmoji_boundaries_witness :
    worriedEmoji 5 = ":worried:" ∧
    worriedEmoji 50 = ":disappointed_relieved:" ∧
    worriedEmoji 200 = ":sob:" :=
  ⟨(worriedEmoji_boundaries 5).1 (by omega) (by omega),
   (worriedEmoji_boundaries 50).2.1 (by omega) (by omega),
   (worriedEmoji_boundaries 200).2.2.1 (by omega)⟩

/-- Claim C8: with the resolved changed-file list empty the run crashes
instead of reporting a passed empty result: spawnSync receives the whole
pipeline text as the name of an executable (the source passes no shell
option), fails with ENOENT and a null status, so exec rejects; and even
under a shell, the linter invoked by xargs with no file argument exits
non-zero with a non-JSON usage text, which exec also turns into a
rejection. -/
theorem empty_diff_crashes :
    lintDiff enoentSpawn (fun _ => some []) =
      Except.error (LintErr.execFailed (some (SpawnErr.spawnFailed "ENOENT"))) ∧
    handler (some "pr body") (some "summary.md") id (lintDiff enoentSpawn fun _ => some []) =
      ([Event.lintInvoked],
        some (RunErr.lintFailed (LintErr.execFailed (some (SpawnErr.spawnFailed "ENOENT"))))) ∧
    lintDiff { status := some 2, stdout := "eslint usage help", error := none } (fun _ => none) =
      Except.error (LintErr.execFailed none) := by
  exact ⟨rfl, rfl, rfl⟩

/-- Claim C9: the four span fields of the annotation built for a finding
are the line, column, endLine and endColumn of the finding, unchanged. -/
theorem annot_spans_copied (nf : String → String) (f : File) (m : Message) :
    (mkAnnot nf f m).startLine = m.line ∧
    (mkAnnot nf f m).startColumn = m.column ∧
    (mkAnnot nf f m).endLine = m.endLine ∧
    (mkAnnot nf f m).endColumn = m.endColumn :=
  ⟨rfl, rfl, rfl, rfl⟩

/-- Left fold of addition over a list equals the accumulator plus the
list sum. -/
theorem foldl_add_eq_sum (l : List Nat) (a : Nat) :
    l.foldl (fun prev cur => prev + cur) a = a + l.sum := by
  induction l generalizing a with
  | nil => simp
  | cons x t ih => simp [ih, List.sum_cons]; omega

/-- The reduce of the source computes the sum of the finding counts over
the files that survive the filter. -/
theorem totalErrors_eq_sum (results : List File) :
    totalErrors results =
      ((results.filter fun f => decide (0 < f.messages.length)).map
        fun f => f.messages.length).sum := by
  unfold totalErrors filesWithErrors
  rw [foldl_add_eq_sum]
  exact Nat.zero_add _

/-- The annotations flatMap yields one annotation per finding of the
filtered files. -/
theorem annotsFor_length (nf : String → String) (results : List File) :
    (annotsFor nf results).length = totalErrors results := by
  unfold annotsFor
  rw [List.length_flatMap, totalErrors_eq_sum]
  have hc : (List.length ∘ fun f : File => List.map (fun m => mkAnnot nf f m) f.messages) =
      fun f : File => f.messages.length := by
    funext f
    simp [List.length_map]
  rw [filesWithErrors, hc]

/-- Counting warnings distributes over trace concatenation. -/
theorem countWarnings_append (l1 l2 : List Event) :
    countWarnings (l1 ++ l2) = countWarnings l1 + countWarnings l2 := by
  simp [countWarnings, List.filter_append]

/-- Warning count of the failure trace produced by the handler. -/
theorem countWarnings_trace (l : List Annot) (m : String) :
    countWarnings (Event.lintInvoked :: l.map Event.warningEmitted ++ [Event.runFailed m]) =
      l.length := by
  induction l with
  | nil => rfl
  | cons a t ih =>
    simp only [List.map_cons, countWarnings, List.filter_cons, List.cons_append] at ih ⊢
    simpa using ih

/-- The failure trace of the handler contains no summary event. -/
theorem noSummaryEvent_trace (l : List Annot) (m : String) :
    noSummaryEvent (Event.lintInvoked :: l.map Event.warningEmitted ++ [Event.runFailed m]) =
      true := by
  induction l with
  | nil => rfl
  | cons a t ih =>
    simp only [List.map_cons, noSummaryEvent, List.all_cons, List.cons_append] at ih ⊢
    simp

/-- Claim C1: for every lint result list, the handler emits exactly one
warning annotation per finding of the files that have at least one
finding; files with zero findings are dropped by the filter before the
annotations are built, so the warning count equals the sum of the
per-file finding counts over the surviving files. -/
theorem warning_count_eq_finding_sum (body sp : Option String) (nf : String → String)
    (results : List File) (hb : shouldBeSkipped body = false) :
    countWarnings (handler body sp nf (Except.ok results)).1 =
      ((results.filter fun f => decide (0 < f.messages.length)).map
        fun f => f.messages.length).sum := by
  rw [← totalErrors_eq_sum]
  by_cases ht : 0 < totalErrors results
  · cases sp with
    | none =>
      simp only [handler, hb, Bool.false_eq_true, if_false, ht, if_true, writeSummary]
      rw [countWarnings_trace]
      exact annotsFor_length nf results
    | some s =>
      simp only [handler, hb, Bool.false_eq_true, if_false, ht, if_true, writeSummary]
      rw [countWarnings_append, countWarnings_trace]
      have h0 : countWarnings [Event.summaryWritten
        ("## Found " ++ toString (totalErrors results) ++
          " linter hints in the changed code. " ++ worriedEmoji (totalErrors results))] = 0 := rfl
      rw [h0, Nat.add_zero]
      exact annotsFor_length nf results
  · have ht0 : totalErrors results = 0 := Nat.eq_zero_of_not_pos ht
    cases sp with
    | none =>
      simp only [handler, hb, Bool.false_eq_true, if_false, ht, if_false, writeSummary]
      simp [countWarnings, ht0]
    | some s =>
      simp only [handler, hb, Bool.false_eq_true, if_false, ht, if_false, writeSummary]
      simp [countWarnings, ht0]

/-- Witness for warning_count_eq_finding_sum on one file with a finding
and one without. -/
theorem warning_count_eq_finding_sum_witness :
    countWarnings (handler none (some "summary.md") id (Except.ok [sampleFile, emptyFile])).1 =
      (([sampleFile, emptyFile].filter fun f => decide (0 < f.messages.length)).map
        fun f => f.messages.length).sum :=
  warning_count_eq_finding_sum none (some "summary.md") id [sampleFile, emptyFile] rfl

/-- Claim C2: a run whose external lint process exits with a non-zero or
null status (which covers the ETIMEDOUT kill of the ten-minute timeout)
or whose output fails to parse ends in a propagated error: lintDiff
rejects, the handler records a run-level error and writes no summary, so
no clean result is ever reported; the timeout constant is ten minutes in
milliseconds. -/
theorem lint_failure_propagates (r : SpawnResult) (parseJson : String → Option (List File))
    (body sp : Option String) (nf : String → String)
    (h : r.status ≠ some 0 ∨ parseJson r.stdout = none)
    (hb : shouldBeSkipped body = false) :
    (∃ e, lintDiff r parseJson = Except.error e) ∧
    (handler body sp nf (lintDiff r parseJson)).2 ≠ none ∧
    noSummaryEvent (handler body sp nf (lintDiff r parseJson)).1 = true ∧
    LINTER_TIMEOUT = 600000 := by
  have hlint : ∃ e, lintDiff r parseJson = Except.error e := by
    by_cases hs : r.status = some 0
    · rcases h with h | h
      · exact absurd hs h
      · exact ⟨LintErr.parseFailed, by simp [lintDiff, execModel, hs, h]⟩
    · exact ⟨LintErr.execFailed r.error, by simp [lintDiff, execModel, hs]⟩
  obtain ⟨e, he⟩ := hlint
  refine ⟨⟨e, he⟩, ?_, ?_, rfl⟩
  · rw [he]
    simp [handler, hb]
  · rw [he]
    simp [handler, hb, noSummaryEvent]

/-- Witness for lint_failure_propagates at a non-zero exit status. -/
theorem lint_failure_propagates_witness :
    (∃ e, lintDiff { status := some 2, stdout := "", error := none }
      (fun _ => none) = Except.error e) ∧
    (handler none (some "summary.md") id
      (lintDiff { status := some 2, stdout := "", error := none } fun _ => none)).2 ≠ none ∧
    noSummaryEvent (handler none (some "summary.md") id
      (lintDiff { status := some 2, stdout := "", error := none } fun _ => none)).1 = true ∧
    LINTER_TIMEOUT = 600000 :=
  lint_failure_propagates _ _ _ _ _ (Or.inl (by decide)) rfl

/-- Claim C4: the trigger filter skips exactly when the body is a
non-null string containing one of the three literal markers (the empty
string, being falsy, contains none of them and never skips); and for any
skipped body the handler trace is empty, so no diff resolution, no
linting and no annotation ever happens. -/
theorem skip_iff_markers (body : Option String) :
    (shouldBeSkipped body = true ↔
      ∃ b, body = some b ∧
        ("[review skip]".toList <:+: b.toList ∨
         "[no review]".toList <:+: b.toList ∨
         "[skip review]".toList <:+: b.toList)) ∧
    (∀ (sp : Option String) (nf : String → String) (lint : Except LintErr (List File)),
      shouldBeSkipped body = true → (handler body sp nf lint).1 = []) := by
  constructor
  · cases body with
    | none => simp [shouldBeSkipped]
    | some b =>
      simp only [shouldBeSkipped]
      by_cases hb : b.toList.isEmpty = true
      · have hb2 : b.toList = [] := List.isEmpty_iff.mp hb
        rw [if_pos hb]
        constructor
        · intro hfalse
          exact absurd hfalse (by simp)
        · rintro ⟨b2, hbeq, hmark⟩
          injection hbeq with h2
          subst h2
          rcases hmark with h | h | h <;>
            (rw [hb2, List.infix_nil] at h; exact absurd h (by decide))
      · rw [if_neg hb]
        simp only [jsIncludes, Bool.or_eq_true, hasInfix_iff, or_assoc]
        constructor
        · intro h
          exact ⟨b, rfl, h⟩
        · rintro ⟨b2, hbeq, h⟩
          injection hbeq with h2
          subst h2
          exact h
  · intro sp nf lint h
    simp [handler, h]

/-- Witness for skip_iff_markers on the scenario body
"please review [skip review] thanks". -/
theorem skip_iff_markers_witness :
    shouldBeSkipped (some "please review [skip review] thanks") = true ∧
    (handler (some "please review [skip review] thanks") (some "summary.md") id
      (Except.ok [])).1 = [] :=
  ⟨(skip_iff_markers _).1.mpr ⟨_, rfl, Or.inr (Or.inr (by decide))⟩,
   (skip_iff_markers _).2 _ _ _
     ((skip_iff_markers _).1.mpr ⟨_, rfl, Or.inr (Or.inr (by decide))⟩)⟩

/-- Claim C7 (counterexample): with the summary destination absent the
configuration error is raised only at summary-writing time, AFTER the
linting work: the run that reaches writeSummary has already recorded the
lintInvoked event when it fails with missingSummaryPath, contradicting
the claim that the error precedes any linting work. -/
theorem summary_config_error_after_lint_cex :
    Event.lintInvoked ∈ (handler (some "pr") none id (Except.ok [sampleFile])).1 ∧
    (handler (some "pr") none id (Except.ok [sampleFile])).2 =
      some RunErr.missingSummaryPath := by
  constructor
  · decide
  · rfl

/-- Claim C7 (amended): when the summary destination is absent, every
non-skipped run whose lint succeeded fails with the fatal configuration
error missingSummaryPath, raised inside writeSummary after the linting
work but before any summary content is written, so the trace never
contains a summary event. -/
theorem missing_summary_fatal (body : Option String) (nf : String → String)
    (results : List File) (hb : shouldBeSkipped body = false) :
    (handler body none nf (Except.ok results)).2 = some RunErr.missingSummaryPath ∧
    noSummaryEvent (handler body none nf (Except.ok results)).1 = true := by
  by_cases ht : 0 < totalErrors results
  · constructor
    · simp only [handler, hb, Bool.false_eq_true, if_false, ht, if_true, writeSummary]
    · simp only [handler, hb, Bool.false_eq_true, if_false, ht, if_true, writeSummary]
      exact noSummaryEvent_trace _ _
  · constructor
    · simp only [handler, hb, Bool.false_eq_true, if_false, ht, if_false, writeSummary]
    · simp only [handler, hb, Bool.false_eq_true, if_false, ht, if_false, writeSummary]
      rfl

/-- Witness for missing_summary_fatal on a concrete non-skipped run. -/
theorem missing_summary_fatal_witness :
    (handler (some "x") none id (Except.ok [sampleFile])).2 =
      some RunErr.missingSummaryPath ∧
    noSummaryEvent (handler (some "x") none id (Except.ok [sampleFile])).1 = true :=
  missing_summary_fatal (some "x") id [sampleFile] (by decide)

/-- Claim C10: a body that triggers the skip predicate makes the handler
return the empty trace and no error: no lint invocation, no warning
annotation, no fail status, no summary of either kind. -/
theorem skip_produces_no_output (body sp : Option String) (nf : String → String)
    (lint : Except LintErr (List File)) (h : shouldBeSkipped body = true) :
    handler body sp nf lint = ([], none) := by
  simp [handler, h]

/-- Witness for skip_produces_no_output on the marker body. -/
theorem skip_produces_no_output_witness :
    handler (some "[no review]") (some "summary.md") id
      (Except.error LintErr.parseFailed) = ([], none) :=
  skip_produces_no_output _ _ _ _ (by decide)

end Reviewbot
